import Mathlib

/-!
Verification of the affiliate-system server (`src/Server.js`).

The server is a CRUD web application over three Mongo collections (users,
clicks, payout requests) with two independent session identity slots.  We
embed the store as explicit lists with a fresh-id counter, the session as a
record with the two slots (plus a bag of untouched extra data), and each
route handler as a pure function from the store (and its inputs) to the new
store together with the rendered response.  Mongo's unique indexes on
`email` and `referralCode` are modelled at each write: a create or save
that would duplicate an indexed value throws, which the handlers surface as
their generic catch-branch error (or, for the startup bootstrap, leave the
store unchanged).  `Math.random()` is modelled by a `rand : Nat` parameter
(the drawn value is `rand % 900`); timestamps are `Nat` parameters.
-/

namespace AffiliateSystem

/-- `role` enum of the user schema. -/
inductive Role
  | affiliate
  | admin
deriving DecidableEq, Repr

/-- `status` enum of the payout schema. -/
inductive PayStatus
  | pending
  | approved
  | rejected
deriving DecidableEq, Repr

/-- The two admin adjudication routes, `/approve` and `/reject`. -/
inductive Decision
  | approve
  | reject
deriving DecidableEq, Repr

/-- Status written by `findByIdAndUpdate` in each adjudication route. -/
def Decision.toStatus : Decision → PayStatus
  | .approve => .approved
  | .reject => .rejected

/-- A document of the `User` collection (`userSchema`). -/
structure Account where
  id : Nat
  name : String
  email : String
  passwordHash : String
  referralCode : String
  role : Role
deriving DecidableEq, Repr

/-- A document of the `Click` collection (`clickSchema`). -/
structure ClickEvent where
  affiliate : Nat
  ip : Option String
  userAgent : Option String
  createdAt : Nat
deriving DecidableEq, Repr

/-- A document of the `PayoutRequest` collection (`payoutSchema`). -/
structure PayoutReq where
  id : Nat
  affiliate : Nat
  amount : Int
  status : PayStatus
  createdAt : Nat
  processedAt : Option Nat
deriving DecidableEq, Repr

/-- The document store: the three collections plus the store-assigned
fresh-id counter. -/
structure DB where
  users : List Account
  clicks : List ClickEvent
  payouts : List PayoutReq
  nextId : Nat
deriving DecidableEq, Repr

/-- The session object: the two independent identity slots (`userId`,
`adminId`) plus whatever other data the session carries. -/
structure Session where
  userId : Option Nat
  adminId : Option Nat
  extra : List (String × String)
deriving DecidableEq, Repr

/-- Model of `bcrypt.hash(password, 10)`: an opaque injective digest. -/
def bhash (password : String) : String := "bcrypt10$" ++ password

/-- Model of `bcrypt.compare(password, digest)`. -/
def bcompare (password digest : String) : Bool := digest == bhash password

/-- JS `String.prototype.split(sep)` for a one-character separator:
the (possibly empty) chunks between occurrences of the separator. -/
def jsSplitChar (sep : Char) : List Char → List (List Char)
  | [] => [[]]
  | c :: cs =>
    if c = sep then [] :: jsSplitChar sep cs
    else
      match jsSplitChar sep cs with
      | [] => [[c]]
      | t :: ts => (c :: t) :: ts

/-- JS `String.prototype.slice(-n)`: the last `n` characters (the whole
string when it is shorter than `n`). -/
def jsSliceLast (n : Nat) (s : String) : String :=
  String.mk (s.data.drop (s.length - n))

/-- JS `String.prototype.toLowerCase()` restricted to ASCII letters. -/
def charToLower (c : Char) : Char :=
  if 65 ≤ c.toNat ∧ c.toNat ≤ 90 then Char.ofNat (c.toNat + 32) else c

/-- `generateReferralCode(name, id)`:
`(name || "user").split(" ")[0].toLowerCase() + String(id).slice(-4)
 + Math.floor(100 + Math.random() * 900)`, with the random draw modelled
by `rand % 900`. -/
def generateReferralCode (name id : String) (rand : Nat) : String :=
  let base :=
    String.mk (((jsSplitChar ' ' (if name = "" then "user" else name).data).headD []).map charToLower)
  base ++ jsSliceLast 4 id ++ toString (100 + rand % 900)

/-- `User.findById`. -/
def findById (db : DB) (i : Nat) : Option Account :=
  db.users.find? fun u => decide (u.id = i)

/-- `ensureAdminUser()`: skip when either env value is absent (or empty,
which is falsy); no-op when an admin with the email exists; otherwise
`User.create` an admin with referral code `"admin"` — unless a unique
index (email, or referralCode `"admin"`) would be violated, in which case
the create throws and the store is unchanged. -/
def ensureAdminUser (db : DB) (adminEmail adminPassword : Option String) : DB :=
  match adminEmail, adminPassword with
  | some e, some p =>
    if e = "" ∨ p = "" then db
    else if db.users.any (fun u => decide (u.email = e ∧ u.role = Role.admin)) then db
    else if db.users.any (fun u => decide (u.email = e ∨ u.referralCode = "admin")) then db
    else
      { db with
          users := db.users ++ [⟨db.nextId, "Super Admin", e, bhash p, "admin", Role.admin⟩],
          nextId := db.nextId + 1 }
  | _, _ => db

/-- A response rendered to the affiliate register/login forms. -/
inductive FormResp
  | renderError (msg : String)
  | redirectDashboard
deriving DecidableEq, Repr

/-- Outcome of `POST /register`: the store, the affiliate session slot it
establishes (`none` = slot untouched), and the response. -/
structure RegOut where
  db : DB
  sessionUserId : Option Nat
  resp : FormResp
deriving DecidableEq, Repr

/-- `POST /register`: blank-field check, duplicate-email check
(`findOne({ email })`, any role), then create with placeholder referral
code `"temp"`, generate the real code from name and id, and save it.
Either write can violate a unique index; the `catch` renders the generic
error and nothing is rolled back. -/
def register (db : DB) (name email password : String) (rand : Nat) : RegOut :=
  if name = "" ∨ email = "" ∨ password = "" then
    ⟨db, none, .renderError "Sab field bhar do."⟩
  else if db.users.any (fun u => decide (u.email = email)) then
    ⟨db, none, .renderError "Ye email already registered hai."⟩
  else if db.users.any (fun u => decide (u.referralCode = "temp")) then
    ⟨db, none, .renderError "Error aaya."⟩
  else
    let uid := db.nextId
    let u : Account := ⟨uid, name, email, bhash password, "temp", Role.affiliate⟩
    let db1 : DB := { db with users := db.users ++ [u], nextId := uid + 1 }
    let code := generateReferralCode name (toString uid) rand
    if db1.users.any (fun v => decide (v.referralCode = code ∧ v.id ≠ uid)) then
      ⟨db1, none, .renderError "Error aaya."⟩
    else
      ⟨{ db1 with
           users := db1.users.map fun v =>
             if v.id = uid then { v with referralCode := code } else v },
        some uid, .redirectDashboard⟩

/-- Outcome of `POST /login`: the affiliate session slot it establishes
(`none` = slot untouched) and the response.  The store is unchanged. -/
structure LoginOut where
  sessionUserId : Option Nat
  resp : FormResp
deriving DecidableEq, Repr

/-- `POST /login`: blank check, then `findOne({ email, role: "affiliate" })`;
the same message is rendered for a missing user and a failed hash
comparison. -/
def login (db : DB) (email password : String) : LoginOut :=
  if email = "" ∨ password = "" then
    ⟨none, .renderError "Email aur password dalo."⟩
  else
    match db.users.find? (fun u => decide (u.email = email ∧ u.role = Role.affiliate)) with
    | none => ⟨none, .renderError "Galat email ya password."⟩
    | some u =>
      if bcompare password u.passwordHash then ⟨some u.id, .redirectDashboard⟩
      else ⟨none, .renderError "Galat email ya password."⟩

/-- `GET /logout`: `req.session.userId = null`. -/
def affiliateLogout (s : Session) : Session := { s with userId := none }

/-- `GET /admin/logout`: `req.session.adminId = null`. -/
def adminLogout (s : Session) : Session := { s with adminId := none }

/-- What a route guard does with a request. -/
inductive GuardResult
  | proceed
  | redirectToLogin
  | redirectToAdminLogin
deriving DecidableEq, Repr

/-- `requireAffiliate`: redirect to `/login` when the affiliate slot is
unset, else `next()`. -/
def requireAffiliate (s : Session) : GuardResult :=
  match s.userId with
  | none => .redirectToLogin
  | some _ => .proceed

/-- `requireAdmin`: redirect to `/admin/login` when the admin slot is
unset, else `next()`. -/
def requireAdmin (s : Session) : GuardResult :=
  match s.adminId with
  | none => .redirectToAdminLogin
  | some _ => .proceed

/-- `res.locals` as set by `loadSessionData`. -/
structure Locals where
  currentUser : Option Account
  adminUser : Option Account
deriving DecidableEq, Repr

/-- `loadSessionData`: resolve each set slot by `findById`; a stale id
resolves to `none` (JS `null`). -/
def loadSessionData (db : DB) (s : Session) : Locals :=
  ⟨s.userId.bind (findById db), s.adminId.bind (findById db)⟩

/-- Response of `GET /r/:code`. -/
inductive ClickResp
  | notFound
  | found (user : Account)
deriving DecidableEq, Repr

/-- Outcome of `GET /r/:code`. -/
structure ClickOut where
  db : DB
  resp : ClickResp
deriving DecidableEq, Repr

/-- `GET /r/:code`: `findOne({ referralCode: code, role: "affiliate" })`;
404 on miss, else `Click.create` referencing the account. -/
def resolveAndRecordClick (db : DB) (code : String) (ip userAgent : Option String)
    (now : Nat) : ClickOut :=
  match db.users.find? (fun u => decide (u.referralCode = code ∧ u.role = Role.affiliate)) with
  | none => ⟨db, .notFound⟩
  | some u => ⟨{ db with clicks := db.clicks ++ [⟨u.id, ip, userAgent, now⟩] }, .found u⟩

/-- `Click.countDocuments({ affiliate: uid })` (dashboard total). -/
def totalClicks (db : DB) (uid : Nat) : Nat :=
  (db.clicks.filter fun c => decide (c.affiliate = uid)).length

/-- `Click.countDocuments({ affiliate: uid, createdAt: { $gte: todayStart } })`
(dashboard today count). -/
def todayClicks (db : DB) (uid : Nat) (todayStart : Nat) : Nat :=
  (db.clicks.filter fun c => decide (c.affiliate = uid ∧ todayStart ≤ c.createdAt)).length

/-- The `amount` form field after JS numeric coercion: absent/empty
(falsy), coercing to NaN, or coercing to a number. -/
inductive AmountField
  | missing
  | notNumeric
  | numeric (value : Int)
deriving DecidableEq, Repr

/-- Outcome of `POST /payout-request`: the handler always redirects. -/
structure PayoutOut where
  db : DB
  redirectTo : String
deriving DecidableEq, Repr

/-- `POST /payout-request`: `!amount || isNaN(amount) || Number(amount) <= 0`
redirects without creating anything; otherwise `PayoutRequest.create`
in `pending` status for the session's affiliate. -/
def requestPayout (db : DB) (sessionUserId : Nat) (amount : AmountField)
    (now : Nat) : PayoutOut :=
  match amount with
  | .missing => ⟨db, "/dashboard"⟩
  | .notNumeric => ⟨db, "/dashboard"⟩
  | .numeric v =>
    if v ≤ 0 then ⟨db, "/dashboard"⟩
    else
      ⟨{ db with
           payouts := db.payouts ++ [⟨db.nextId, sessionUserId, v, PayStatus.pending, now, none⟩],
           nextId := db.nextId + 1 },
        "/dashboard"⟩

/-- `POST /admin/payouts/:id/approve` and `/reject`:
`findByIdAndUpdate(id, { status, processedAt })` — unconditional, no
status guard; a missing id is a no-op. -/
def adjudicatePayout (db : DB) (pid : Nat) (d : Decision) (now : Nat) : DB :=
  { db with
      payouts := db.payouts.map fun p =>
        if p.id = pid then { p with status := d.toStatus, processedAt := some now } else p }

/-- The status of the payout request with a given id. -/
def payoutStatus (db : DB) (pid : Nat) : Option PayStatus :=
  (db.payouts.find? fun p => decide (p.id = pid)).map (·.status)

/-- One store-modifying use-case invocation of the server. -/
inductive Step : DB → DB → Prop
  | reg (db : DB) (name email password : String) (rand : Nat) :
      Step db (register db name email password rand).db
  | boot (db : DB) (e p : Option String) :
      Step db (ensureAdminUser db e p)
  | click (db : DB) (code : String) (ip ua : Option String) (now : Nat) :
      Step db (resolveAndRecordClick db code ip ua now).db
  | payoutReq (db : DB) (uid : Nat) (amt : AmountField) (now : Nat) :
      Step db (requestPayout db uid amt now).db
  | adjudicate (db : DB) (pid : Nat) (d : Decision) (now : Nat) :
      Step db (adjudicatePayout db pid d now)

/-- The reading of `generateReferralCode` in the specification, stated for
comparison with the source: the base is the first *whitespace*-delimited
token of the name (the source splits on the space character only). -/
def generateReferralCodeWhitespaceModel (name id : String) (rand : Nat) : String :=
  let base :=
    if name = "" then "user"
    else
      String.mk
        ((((name.data.splitOnP fun c => c.isWhitespace).filter
            fun t => decide (t ≠ [])).headD []).map charToLower)
  base ++ jsSliceLast 4 id ++ toString (100 + rand % 900)

theorem jsSplitChar_ne_nil (sep : Char) (l : List Char) : jsSplitChar sep l ≠ [] := by
  cases l with
  | nil => simp [jsSplitChar]
  | cons c cs =>
    simp only [jsSplitChar]
    split
    · simp
    · split <;> simp

theorem jsSplitChar_headD (sep : Char) (l : List Char) :
    (jsSplitChar sep l).headD [] = l.takeWhile fun c => decide (c ≠ sep) := by
  induction l with
  | nil => rfl
  | cons c cs ih =>
    by_cases h : c = sep
    · simp [jsSplitChar, h]
    · simp only [jsSplitChar, if_neg h]
      cases hm : jsSplitChar sep cs with
      | nil => exact absurd hm (jsSplitChar_ne_nil sep cs)
      | cons t ts =>
        rw [hm] at ih
        simp only [List.headD_cons] at ih
        simp [List.takeWhile_cons, h, ih]

/-- Store used for several concrete instances: one affiliate account. -/
def dbOneAffiliate : DB :=
  ⟨[⟨0, "Asha", "a@x", bhash "pw", "asha0100", Role.affiliate⟩], [], [], 1⟩

/-- The empty store. -/
def emptyDB : DB := ⟨[], [], [], 0⟩

/-- A session whose affiliate slot holds an id that resolves to no account
of `emptyDB`. -/
def staleSession : Session := ⟨some 42, none, []⟩

/-- C4 (counterexample): the claim reads the base of the referral code as
the first whitespace-delimited token of the name, but the source splits on
the space character only: for the name containing a tab, the source keeps
the tab and the second word in the base, so the two disagree. -/
theorem generateReferralCode_whitespace_counterexample :
    generateReferralCode "Asha\tRao" "abcd1234" 0 = "asha\trao1234100" ∧
    generateReferralCodeWhitespaceModel "Asha\tRao" "abcd1234" 0 = "asha1234100" ∧
    generateReferralCode "Asha\tRao" "abcd1234" 0 ≠
      generateReferralCodeWhitespaceModel "Asha\tRao" "abcd1234" 0 := by
  decide

/-- C4 (amended): for every name, id and random draw, the generated code is
the lowercased prefix of the name before the first *space character* (the
default word `"user"` replacing an empty name), followed by the last 4
characters of the id, followed by a 3-digit suffix in `100..999`. -/
theorem generateReferralCode_spec (name id : String) (rand : Nat) :
    ∃ n : Nat, 100 ≤ n ∧ n ≤ 999 ∧
      generateReferralCode name id rand =
        String.mk
          (((if name = "" then "user" else name).data.takeWhile
              fun c => decide (c ≠ ' ')).map charToLower)
          ++ jsSliceLast 4 id ++ toString n := by
  refine ⟨100 + rand % 900, by omega, ?_, ?_⟩
  · have : rand % 900 < 900 := Nat.mod_lt rand (by omega)
    omega
  · simp only [generateReferralCode]
    rw [jsSplitChar_headD]

/-- C8: affiliate logout clears only the affiliate slot and admin logout
clears only the admin slot; the other slot and all other session data are
left unchanged. -/
theorem logout_slot_local (s : Session) :
    (affiliateLogout s).userId = none ∧ (affiliateLogout s).adminId = s.adminId ∧
    (affiliateLogout s).extra = s.extra ∧ (adminLogout s).adminId = none ∧
    (adminLogout s).userId = s.userId ∧ (adminLogout s).extra = s.extra :=
  ⟨rfl, rfl, rfl, rfl, rfl, rfl⟩

/-- Store in which registering `"Bob"` makes the second registration step
fail: the code the generator will produce for the new account,
`"bob1100"`, is already the referral code of an existing account, so the
`user.save()` violates the unique index. -/
def dbRegFail : DB :=
  ⟨[⟨0, "Eve", "eve@x", bhash "evepw", "bob1100", Role.affiliate⟩], [], [], 1⟩

/-- C9: registration is not atomic — when the initial create succeeds but
the save of the generated referral code fails on the uniqueness index, the
generic error is rendered, no affiliate session is established, and the
account created in the first step remains in the store with the
placeholder code `"temp"`. -/
theorem register_second_save_failure_keeps_placeholder :
    generateReferralCode "Bob" "1" 0 = "bob1100" ∧
    (dbRegFail.users.any fun u => decide (u.referralCode = "bob1100")) = true ∧
    (register dbRegFail "Bob" "bob@x" "pw" 0).resp = .renderError "Error aaya." ∧
    (register dbRegFail "Bob" "bob@x" "pw" 0).sessionUserId = none ∧
    (register dbRegFail "Bob" "bob@x" "pw" 0).db.users =
      dbRegFail.users ++ [⟨1, "Bob", "bob@x", bhash "pw", "temp", Role.affiliate⟩] := by
  decide

/-- C10: each route guard admits a request exactly when its session slot is
set (and otherwise redirects to the corresponding login page), regardless
of whether the stored id resolves to an account: a stale id still passes
the guard while the resolved current user is `none`. -/
theorem guards_test_slot_presence_only (s : Session) :
    (requireAffiliate s = .proceed ↔ s.userId.isSome = true) ∧
    (requireAdmin s = .proceed ↔ s.adminId.isSome = true) ∧
    (requireAffiliate s = .proceed ∨ requireAffiliate s = .redirectToLogin) ∧
    (requireAdmin s = .proceed ∨ requireAdmin s = .redirectToAdminLogin) ∧
    (requireAffiliate staleSession = .proceed ∧
      (loadSessionData emptyDB staleSession).currentUser = none) := by
  refine ⟨?_, ?_, ?_, ?_, by decide⟩ <;>
    cases hu : s.userId <;> cases ha : s.adminId <;>
      simp [requireAffiliate, requireAdmin, hu, ha]

/-- C2: `GET /r/:code` — when no affiliate-role account carries the code,
the response is the 404 and the store is unchanged (zero click events
created); when the lookup finds an account, the response returns it and
exactly one new `ClickEvent` referencing it is appended, so its total
click count, and its today count when the click time falls within today,
each grow by exactly 1. -/
theorem resolveAndRecordClick_spec (db : DB) (code : String) (ip ua : Option String)
    (now todayStart : Nat) :
    ((∀ u ∈ db.users, ¬(u.referralCode = code ∧ u.role = Role.affiliate)) →
      resolveAndRecordClick db code ip ua now = ⟨db, .notFound⟩) ∧
    (∀ u, db.users.find?
        (fun v => decide (v.referralCode = code ∧ v.role = Role.affiliate)) = some u →
      (resolveAndRecordClick db code ip ua now).resp = .found u ∧
      (resolveAndRecordClick db code ip ua now).db.clicks =
        db.clicks ++ [⟨u.id, ip, ua, now⟩] ∧
      (resolveAndRecordClick db code ip ua now).db.users = db.users ∧
      (resolveAndRecordClick db code ip ua now).db.payouts = db.payouts ∧
      totalClicks (resolveAndRecordClick db code ip ua now).db u.id =
        totalClicks db u.id + 1 ∧
      todayClicks (resolveAndRecordClick db code ip ua now).db u.id todayStart =
        todayClicks db u.id todayStart + (if todayStart ≤ now then 1 else 0)) := by
  constructor
  · intro h
    have hn : db.users.find?
        (fun v => decide (v.referralCode = code ∧ v.role = Role.affiliate)) = none := by
      rw [List.find?_eq_none]
      intro v hv
      simpa using h v hv
    unfold resolveAndRecordClick
    rw [hn]
  · intro u hu
    unfold resolveAndRecordClick
    rw [hu]
    refine ⟨rfl, rfl, rfl, rfl, ?_, ?_⟩
    · simp [totalClicks, List.filter_append]
    · simp only [todayClicks, List.filter_append, List.length_append]
      by_cases h : todayStart ≤ now <;> simp [h]

/-- C6: `POST /payout-request` always redirects to the dashboard with no
error; a missing, non-numeric or non-positive amount creates nothing,
while a positive numeric amount appends exactly one pending
`PayoutRequest` for the session's affiliate with that amount. -/
theorem requestPayout_spec (db : DB) (uid : Nat) (amount : AmountField) (now : Nat) :
    (requestPayout db uid amount now).redirectTo = "/dashboard" ∧
    (amount = .missing ∨ amount = .notNumeric →
      (requestPayout db uid amount now).db = db) ∧
    (∀ v : Int, amount = .numeric v → v ≤ 0 →
      (requestPayout db uid amount now).db = db) ∧
    (∀ v : Int, amount = .numeric v → 0 < v →
      (requestPayout db uid amount now).db.payouts =
        db.payouts ++ [⟨db.nextId, uid, v, PayStatus.pending, now, none⟩] ∧
      (requestPayout db uid amount now).db.users = db.users ∧
      (requestPayout db uid amount now).db.clicks = db.clicks) := by
  cases amount with
  | missing => simp [requestPayout]
  | notNumeric => simp [requestPayout]
  | numeric v =>
    refine ⟨?_, by simp, ?_, ?_⟩
    · unfold requestPayout
      split <;> try rfl
      split <;> rfl
    · intro w hw hle
      injection hw with hvw
      subst hvw
      simp [requestPayout, hle]
    · intro w hw hpos
      injection hw with hvw
      subst hvw
      have hng : ¬ v ≤ 0 := by omega
      simp [requestPayout, hng]

/-- Store holding one affiliate account whose email is `"eve@x"`. -/
def dbDupEmail : DB :=
  ⟨[⟨0, "Eve", "eve@x", bhash "evepw", "eve0100", Role.affiliate⟩], [], [], 1⟩

/-- C3 (counterexample): the blank-field check runs before the duplicate
check, so a request with a blank name and an already-registered email is
rejected with the blank-field message, not the duplicate-email message. -/
theorem register_blank_beats_duplicate :
    (dbDupEmail.users.any fun u => decide (u.email = "eve@x")) = true ∧
    register dbDupEmail "" "eve@x" "secret" 0 =
      ⟨dbDupEmail, none, .renderError "Sab field bhar do."⟩ ∧
    FormResp.renderError "Sab field bhar do." ≠
      FormResp.renderError "Ye email already registered hai." := by
  decide

/-- C3 (amended): for every request with all three fields non-blank whose
email is already present on any account (of any role), registration fails
with the duplicate-email error and the store is unchanged; for every
request with a blank field, it fails with the validation error before any
store write (the blank check takes precedence over the duplicate check). -/
theorem register_duplicate_and_blank_spec (db : DB) (name email password : String)
    (rand : Nat) :
    (name = "" ∨ email = "" ∨ password = "" →
      register db name email password rand = ⟨db, none, .renderError "Sab field bhar do."⟩) ∧
    (name ≠ "" → email ≠ "" → password ≠ "" → (∃ u ∈ db.users, u.email = email) →
      register db name email password rand =
        ⟨db, none, .renderError "Ye email already registered hai."⟩) := by
  constructor
  · intro h
    unfold register
    rw [if_pos h]
  · intro hn he hp hdup
    have hany : (db.users.any fun u => decide (u.email = email)) = true := by
      rw [List.any_eq_true]
      obtain ⟨u, hu, hue⟩ := hdup
      exact ⟨u, hu, by simpa using hue⟩
    unfold register
    rw [if_neg (by tauto), if_pos hany]

/-- The admin account the bootstrap creates from a concrete configuration. -/
def adminAccount : Account :=
  ⟨0, "Super Admin", "root@x", bhash "s3cret", "admin", Role.admin⟩

/-- Store holding only `adminAccount`. -/
def dbAdminOnly : DB := ⟨[adminAccount], [], [], 1⟩

/-- C5: affiliate login looks up by email *and* role=affiliate, so an
admin-role account cannot log in through it even with its correct
credentials — and the rendered failure is the identical result produced
for a wrong password on an existing affiliate account. -/
theorem affiliate_login_role_scoped (db : DB) (a : Account) (password : String)
    (_ha : a ∈ db.users) (hrole : a.role = Role.admin)
    (he : a.email ≠ "") (hp : password ≠ "")
    (hunique : ∀ b ∈ db.users, b.email = a.email → b = a) :
    login db a.email password = ⟨none, .renderError "Galat email ya password."⟩ ∧
    (∀ email pw u, email ≠ "" → pw ≠ "" →
      db.users.find? (fun v => decide (v.email = email ∧ v.role = Role.affiliate)) = some u →
      bcompare pw u.passwordHash = false →
      login db email pw = ⟨none, .renderError "Galat email ya password."⟩) := by
  constructor
  · have hn : db.users.find?
        (fun v => decide (v.email = a.email ∧ v.role = Role.affiliate)) = none := by
      rw [List.find?_eq_none]
      intro b hb
      simp only [decide_eq_true_eq, not_and]
      intro hbe
      have hba := hunique b hb hbe
      rw [hba, hrole]
      simp
    unfold login
    rw [if_neg (by tauto), hn]
  · intro email pw u hne hnp hfind hcmp
    unfold login
    rw [if_neg (by tauto), hfind]
    simp [hcmp]

/-- C5 witness: the bootstrap admin cannot log in through the affiliate
login even with its correct email and password. -/
theorem affiliate_login_role_scoped_witness :
    login dbAdminOnly "root@x" "s3cret" = ⟨none, .renderError "Galat email ya password."⟩ :=
  (affiliate_login_role_scoped dbAdminOnly adminAccount "s3cret" (by decide) (by decide)
    (by decide) (by decide) (by decide)).1

/-- Store holding one affiliate account whose email equals the admin
configuration email. -/
def dbAffHoldsAdminEmail : DB :=
  ⟨[⟨0, "Eve", "root@x", bhash "evepw", "eve0100", Role.affiliate⟩], [], [], 1⟩

/-- C7 (counterexample): with both configuration values present and no
admin account carrying the email, the bootstrap still creates nothing —
an affiliate account already holds the email, so the create would violate
the unique email index and the store is unchanged. -/
theorem ensureAdminUser_unique_email_counterexample :
    (dbAffHoldsAdminEmail.users.any
      fun u => decide (u.email = "root@x" ∧ u.role = Role.admin)) = false ∧
    ensureAdminUser dbAffHoldsAdminEmail (some "root@x") (some "pw2") = dbAffHoldsAdminEmail ∧
    (∀ u ∈ (ensureAdminUser dbAffHoldsAdminEmail (some "root@x") (some "pw2")).users,
      u.role ≠ Role.admin) := by
  decide

theorem ensureAdminUser_none_left (db : DB) (p : Option String) :
    ensureAdminUser db none p = db := by
  cases p <;> rfl

theorem ensureAdminUser_none_right (db : DB) (e : Option String) :
    ensureAdminUser db e none = db := by
  cases e <;> rfl

theorem ensureAdminUser_some_eq (db : DB) (es ps : String) :
    ensureAdminUser db (some es) (some ps) =
      if es = "" ∨ ps = "" then db
      else if db.users.any (fun u => decide (u.email = es ∧ u.role = Role.admin)) then db
      else if db.users.any (fun u => decide (u.email = es ∨ u.referralCode = "admin")) then db
      else
        { db with
            users := db.users ++ [⟨db.nextId, "Super Admin", es, bhash ps, "admin", Role.admin⟩],
            nextId := db.nextId + 1 } := rfl

/-- C7 (amended): the bootstrap is idempotent (a second run with the same
configuration changes nothing) and is skipped when either configuration
value is absent; when an admin account with the configured email exists it
is a no-op; and when no account of any role holds the email and none holds
the sentinel code `"admin"`, it creates exactly one admin account with
referral code `"admin"` (otherwise the create fails on a unique index and
the account set is unchanged). -/
theorem ensureAdminUser_spec (db : DB) (e p : Option String) :
    ensureAdminUser (ensureAdminUser db e p) e p = ensureAdminUser db e p ∧
    (e = none ∨ p = none → ensureAdminUser db e p = db) ∧
    (∀ es ps, e = some es → p = some ps →
      (db.users.any fun u => decide (u.email = es ∧ u.role = Role.admin)) = true →
      ensureAdminUser db e p = db) ∧
    (∀ es ps, e = some es → p = some ps → es ≠ "" → ps ≠ "" →
      (db.users.any fun u => decide (u.email = es ∨ u.referralCode = "admin")) = false →
      (ensureAdminUser db e p).users =
        db.users ++ [⟨db.nextId, "Super Admin", es, bhash ps, "admin", Role.admin⟩]) := by
  refine ⟨?_, ?_, ?_, ?_⟩
  · cases e with
    | none => rw [ensureAdminUser_none_left, ensureAdminUser_none_left]
    | some es =>
      cases p with
      | none => rw [ensureAdminUser_none_right, ensureAdminUser_none_right]
      | some ps =>
        by_cases hb : es = "" ∨ ps = ""
        · have h1 : ensureAdminUser db (some es) (some ps) = db := by
            rw [ensureAdminUser_some_eq, if_pos hb]
          rw [h1]
          exact h1
        · by_cases hadm :
            (db.users.any fun u => decide (u.email = es ∧ u.role = Role.admin)) = true
          · have h1 : ensureAdminUser db (some es) (some ps) = db := by
              rw [ensureAdminUser_some_eq, if_neg hb, if_pos hadm]
            rw [h1]
            exact h1
          · by_cases hdup :
              (db.users.any fun u => decide (u.email = es ∨ u.referralCode = "admin")) = true
            · have h1 : ensureAdminUser db (some es) (some ps) = db := by
                rw [ensureAdminUser_some_eq, if_neg hb, if_neg hadm, if_pos hdup]
              rw [h1]
              exact h1
            · rw [ensureAdminUser_some_eq db, if_neg hb, if_neg hadm, if_neg hdup,
                ensureAdminUser_some_eq, if_neg hb, if_pos ?hx]
              case hx =>
                simp [List.any_append]
  · rintro (rfl | rfl)
    · exact ensureAdminUser_none_left db p
    · exact ensureAdminUser_none_right db e
  · rintro es ps rfl rfl hadm
    rw [ensureAdminUser_some_eq]
    by_cases hb : es = "" ∨ ps = ""
    · rw [if_pos hb]
    · rw [if_neg hb, if_pos hadm]
  · rintro es ps rfl rfl hes hps hnone
    rw [ensureAdminUser_some_eq, if_neg (by tauto),
      if_neg ?h1, if_neg ?h2]
    case h1 =>
      intro hc
      rw [List.any_eq_true] at hc
      obtain ⟨u, hu, hud⟩ := hc
      rw [List.any_eq_false] at hnone
      have := hnone u hu
      simp only [decide_eq_true_eq] at hud this
      exact this (Or.inl hud.1)
    case h2 =>
      intro hc
      rw [hnone] at hc
      exact Bool.noConfusion hc

theorem register_db_payouts (db : DB) (name email password : String) (rand : Nat) :
    (register db name email password rand).db.payouts = db.payouts := by
  simp only [register]
  repeat first
  | rfl
  | split

theorem ensureAdminUser_db_payouts (db : DB) (e p : Option String) :
    (ensureAdminUser db e p).payouts = db.payouts := by
  cases e with
  | none => rw [ensureAdminUser_none_left]
  | some es =>
    cases p with
    | none => rw [ensureAdminUser_none_right]
    | some ps =>
      rw [ensureAdminUser_some_eq]
      repeat first
      | rfl
      | split

theorem resolveAndRecordClick_db_payouts (db : DB) (code : String) (ip ua : Option String)
    (now : Nat) :
    (resolveAndRecordClick db code ip ua now).db.payouts = db.payouts := by
  unfold resolveAndRecordClick
  split <;> rfl

/-- The store after the affiliate of `dbOneAffiliate` requests a payout of 50. -/
def dbPayout1 : DB := (requestPayout dbOneAffiliate 0 (.numeric 50) 10).db

/-- The store after an admin approves that request. -/
def dbPayout2 : DB := adjudicatePayout dbPayout1 1 .approve 11

/-- The store after an admin then rejects the same request. -/
def dbPayout3 : DB := adjudicatePayout dbPayout2 1 .reject 12

/-- C1 (counterexample): a payout request reachable through the defined
use-cases is approved and then rejected — the approve/reject handlers
update unconditionally, so `approved` is not terminal and the status moves
between `approved` and `rejected`. -/
theorem payout_terminality_counterexample :
    Step dbOneAffiliate dbPayout1 ∧ Step dbPayout1 dbPayout2 ∧ Step dbPayout2 dbPayout3 ∧
    payoutStatus dbPayout1 1 = some PayStatus.pending ∧
    payoutStatus dbPayout2 1 = some PayStatus.approved ∧
    payoutStatus dbPayout3 1 = some PayStatus.rejected :=
  ⟨Step.payoutReq dbOneAffiliate 0 (.numeric 50) 10, Step.adjudicate dbPayout1 1 .approve 11,
   Step.adjudicate dbPayout2 1 .reject 12, by decide, by decide, by decide⟩

/-- C1 (amended): no defined use-case ever moves an existing payout
request back to `pending`: provided stored payout ids are below the
fresh-id counter, after any single store-modifying step every pending
payout either was already stored (still pending) before the step, or is a
freshly created request whose id no stored payout had. -/
theorem step_no_return_to_pending (db db' : DB)
    (hw : ∀ p ∈ db.payouts, p.id < db.nextId)
    (h : Step db db') (q : PayoutReq)
    (hq : q ∈ db'.payouts) (hqs : q.status = PayStatus.pending) :
    q ∈ db.payouts ∨ ∀ p ∈ db.payouts, p.id ≠ q.id := by
  cases h with
  | reg name email password rand =>
    rw [register_db_payouts] at hq
    exact Or.inl hq
  | boot e p =>
    rw [ensureAdminUser_db_payouts] at hq
    exact Or.inl hq
  | click code ip ua now =>
    rw [resolveAndRecordClick_db_payouts] at hq
    exact Or.inl hq
  | payoutReq uid amt now =>
    cases amt with
    | missing => exact Or.inl hq
    | notNumeric => exact Or.inl hq
    | numeric v =>
      by_cases hv : v ≤ 0
      · simp only [requestPayout] at hq
        rw [if_pos hv] at hq
        exact Or.inl hq
      · simp only [requestPayout] at hq
        rw [if_neg hv] at hq
        rcases List.mem_append.mp hq with hold | hnew
        · exact Or.inl hold
        · right
          intro p hp
          have hlt := hw p hp
          have hqe : q = ⟨db.nextId, uid, v, PayStatus.pending, now, none⟩ := by
            simpa using hnew
          subst hqe
          show p.id ≠ db.nextId
          omega
  | adjudicate pid d now =>
    replace hq : q ∈ db.payouts.map fun p =>
        if p.id = pid then { p with status := d.toStatus, processedAt := some now } else p := hq
    rcases List.mem_map.mp hq with ⟨p, hp, hfp⟩
    by_cases hid : p.id = pid
    · exfalso
      rw [← hfp] at hqs
      rw [if_pos hid] at hqs
      cases d <;> simp [Decision.toStatus] at hqs
    · rw [← hfp, if_neg hid]
      exact Or.inl hp

/-- The payout request created by `requestPayout` from `dbOneAffiliate`. -/
def newPayout50 : PayoutReq := ⟨1, 0, 50, PayStatus.pending, 10, none⟩

/-- C1 witness: the amended theorem applied to the concrete
payout-request-creation step out of `dbOneAffiliate`. -/
theorem step_no_return_to_pending_witness :
    newPayout50 ∈ dbOneAffiliate.payouts ∨
      ∀ p ∈ dbOneAffiliate.payouts, p.id ≠ newPayout50.id :=
  step_no_return_to_pending dbOneAffiliate dbPayout1 (by decide)
    (Step.payoutReq dbOneAffiliate 0 (.numeric 50) 10) newPayout50 (by decide) (by decide)

end AffiliateSystem
